import Mathlib

/-!
Verification of the lunar-lander simulation core.

The Rust source is shallowly embedded: `f32`/`f64` values become real
numbers, `u32` values become natural numbers, `bool` becomes `Bool`,
`Option` stays `Option`.  `glam::Vec3` and `glam::Quat` are embedded as
records of reals with the exact arithmetic the library performs
(quaternion-vector rotation uses the glam `mul_vec3` formula).  Instants
and durations (used by the button repeat timer) become natural numbers
measured in milliseconds.
-/

namespace Lunar

/-- Embedding of `glam::Vec3` over the reals. -/
structure Vec3 where
  x : ℝ
  y : ℝ
  z : ℝ

namespace Vec3

def zero : Vec3 := ⟨0, 0, 0⟩

/-- The world up axis `Vec3::Z`. -/
def unitZ : Vec3 := ⟨0, 0, 1⟩

def add (a b : Vec3) : Vec3 := ⟨a.x + b.x, a.y + b.y, a.z + b.z⟩

/-- Scalar multiplication `k * v`. -/
def smul (k : ℝ) (v : Vec3) : Vec3 := ⟨k * v.x, k * v.y, k * v.z⟩

/-- Componentwise division `v / w` (used for the inertia tensor). -/
noncomputable def hdiv (a b : Vec3) : Vec3 := ⟨a.x / b.x, a.y / b.y, a.z / b.z⟩

/-- Division of a vector by a scalar. -/
noncomputable def divScalar (v : Vec3) (k : ℝ) : Vec3 := ⟨v.x / k, v.y / k, v.z / k⟩

def dot (a b : Vec3) : ℝ := a.x * b.x + a.y * b.y + a.z * b.z

def cross (a b : Vec3) : Vec3 :=
  ⟨a.y * b.z - a.z * b.y, a.z * b.x - a.x * b.z, a.x * b.y - a.y * b.x⟩

def lengthSquared (v : Vec3) : ℝ := v.dot v

/-- Embeds `Vec3::length`, the Euclidean norm. -/
noncomputable def length (v : Vec3) : ℝ := Real.sqrt v.lengthSquared

/-- Embeds `Vec3::angle_between`: arc-cosine of the normalized dot product (glam
clamps the argument; `Real.arccos` performs the same clamping). -/
noncomputable def angleBetween (a b : Vec3) : ℝ :=
  Real.arccos (a.dot b / Real.sqrt (a.lengthSquared * b.lengthSquared))

end Vec3

/-- Embedding of `glam::Quat` over the reals. -/
structure Quat where
  x : ℝ
  y : ℝ
  z : ℝ
  w : ℝ

namespace Quat

/-- Embeds `Quat::IDENTITY`. -/
def identity : Quat := ⟨0, 0, 0, 1⟩

/-- Hamilton product, as implemented by `glam::Quat::mul_quat`. -/
def mul (a b : Quat) : Quat :=
  ⟨a.w * b.x + a.x * b.w + a.y * b.z - a.z * b.y,
   a.w * b.y - a.x * b.z + a.y * b.w + a.z * b.x,
   a.w * b.z + a.x * b.y - a.y * b.x + a.z * b.w,
   a.w * b.w - a.x * b.x - a.y * b.y - a.z * b.z⟩

/-- Rotation of a vector by a quaternion, exactly the `glam::Quat::mul_vec3`
formula: `v * (w*w - |b|^2) + b * (v.dot b * 2) + (b.cross v) * (w * 2)`
where `b` is the vector part. -/
def mulVec3 (q : Quat) (v : Vec3) : Vec3 :=
  let b : Vec3 := ⟨q.x, q.y, q.z⟩
  let b2 := b.dot b
  ((Vec3.smul (q.w * q.w - b2) v).add (Vec3.smul (v.dot b * 2) b)).add
    (Vec3.smul (q.w * 2) (b.cross v))

/-- Embeds `Quat::from_rotation_x`. -/
noncomputable def fromRotationX (a : ℝ) : Quat := ⟨Real.sin (a / 2), 0, 0, Real.cos (a / 2)⟩

/-- Embeds `Quat::from_rotation_y`. -/
noncomputable def fromRotationY (a : ℝ) : Quat := ⟨0, Real.sin (a / 2), 0, Real.cos (a / 2)⟩

/-- Embeds `Quat::from_rotation_z`. -/
noncomputable def fromRotationZ (a : ℝ) : Quat := ⟨0, 0, Real.sin (a / 2), Real.cos (a / 2)⟩

/-- Embeds `Quat::from_euler(EulerRot::XYZ, a, b, c)`: composition of the three
axis rotations in XYZ order. -/
noncomputable def fromEulerXYZ (a b c : ℝ) : Quat :=
  (fromRotationX a).mul ((fromRotationY b).mul (fromRotationZ c))

end Quat

/-! ## Rate-of-descent controller (src/lander/controllers.rs) -/

/-- Moon gravitational constant in meters per second squared
(`MOON_GRAVITY` in src/lander.rs). -/
noncomputable def MOON_GRAVITY : ℝ := -1.62

/-- Generic PID controller (`PidController` in src/lander/controllers.rs). -/
structure PidController where
  kp : ℝ
  ki : ℝ
  kd : ℝ
  prevError : ℝ
  integral : ℝ

namespace PidController

/-- Embeds `PidController::new`. -/
def new (kp ki kd : ℝ) : PidController :=
  { kp := kp, ki := ki, kd := kd, prevError := 0, integral := 0 }

/-- Embeds `PidController::update`: mutates `integral` and `prev_error` and returns
the control value; embedded as a state-passing function returning the new
controller and the control value. -/
noncomputable def update (p : PidController) (setpoint measured dt : ℝ) :
    PidController × ℝ :=
  let error := setpoint - measured
  let integral := p.integral + error * dt
  let derivative := (error - p.prevError) / dt
  ({ p with integral := integral, prevError := error },
   p.kp * error + p.ki * integral + p.kd * derivative)

end PidController

/-- Clamp as performed by Rust `f32::clamp(lo, hi)` on non-NaN inputs with
`lo <= hi`: values below `lo` go to `lo`, values above `hi` go to `hi`. -/
noncomputable def rustClamp (v lo hi : ℝ) : ℝ := min (max v lo) hi

/-- Vertical velocity controller (`VerticalVelocityController` in
src/lander/controllers.rs; referenced from src/lander.rs under the name
`RodController`). -/
structure VerticalVelocityController where
  pid : PidController
  target : ℝ
  thrust : ℝ

namespace VerticalVelocityController

/-- Embeds `VerticalVelocityController::new`: PID gains 0.8, 0.05, 0.3. -/
def new (target thrust : ℝ) : VerticalVelocityController :=
  { pid := PidController.new 0.8 0.05 0.3, target := target, thrust := thrust }

/-- Embeds `VerticalVelocityController::adjust_target`. -/
def adjustTarget (c : VerticalVelocityController) (delta : ℝ) :
    VerticalVelocityController :=
  { c with target := c.target + delta }

/-- Modelled from the spec: `RodController::set_target` is called from
`Lander::step` but its definition is not among the sources; per the spec
the controller stores a target vertical velocity that the operator updates,
so setting the target replaces the stored value and touches nothing else. -/
def setTarget (c : VerticalVelocityController) (t : ℝ) :
    VerticalVelocityController :=
  { c with target := t }

/-- Embeds `VerticalVelocityController::compute_throttle`: runs the PID update,
adds moon gravity, converts the desired vertical acceleration into a
required force, divides by the tilt-compensated thrust reference, and
clamps the result into [0, 1].  Returns the updated controller and the
throttle. -/
noncomputable def computeThrottle (c : VerticalVelocityController)
    (current mass tilt dt : ℝ) : VerticalVelocityController × ℝ :=
  let r := c.pid.update c.target current dt
  let desiredAccel := r.2
  let totalVerticalAccel := MOON_GRAVITY + desiredAccel
  let requiredVerticalForce := mass * totalVerticalAccel
  let throttle := requiredVerticalForce / (c.thrust * Real.cos tilt)
  ({ c with pid := r.1 }, rustClamp throttle 0 1)

end VerticalVelocityController

/-- The name used for the controller in src/lander.rs. -/
abbrev RodController := VerticalVelocityController

/-! ## Flight dynamics (src/lander.rs) -/

/-- Base mass for the apollo lander, kg. -/
noncomputable def APOLLO_LANDER_DRY_MASS_KG : ℝ := 2150

/-- Payload mass (ascent stage and ascent fuel), kg. -/
noncomputable def APOLLO_LANDER_PAYLOAD_MASS_KG : ℝ := 2150 + 2400

/-- Initial descent fuel mass, kg. -/
noncomputable def APOLLO_LANDER_INITIAL_FUEL_MASS_KG : ℝ := 600

/-- Main descent thrust power in newtons. -/
noncomputable def APOLLO_LANDER_DCS_THRUST_N : ℝ := 45000

/-- Descent fuel burn rate at full thrust, kg per second. -/
noncomputable def APOLLO_LANDER_FUEL_BURN_RATE_KGPS : ℝ := 15

/-- RCS thrust for strafing, newtons. -/
noncomputable def APOLLO_LANDER_RCS_THRUST_N : ℝ := 880

/-- RCS torque in newton-meters. -/
noncomputable def APOLLO_LANDER_RCS_TORQUE_NM : ℝ := 3700

/-- Estimated inertial profile for the lunar lander (diagonal tensor). -/
noncomputable def APOLLO_LANDER_INERTIA : Vec3 :=
  ⟨(3 * 2.1 * 2.1 + 7 * 7) / 12, (3 * 2.1 * 2.1 + 7 * 7) / 12, (2.1 * 2.1) / 2⟩

/-- The per-tick control inputs that `Lander::step` reads from `Controls`:
the rate-of-descent target (`controls.rate_of_descent()`), the strafe
vector (`controls.strafe()`, a `Vec2`) and the rotation input
(`controls.rotate()`, a `Vec3`).  The live `Controls` object is a
lock-guarded record of these values; the step function only consumes one
consistent snapshot, embedded here as a plain record. -/
structure ControlsSnapshot where
  rateOfDescent : ℝ
  strafeX : ℝ
  strafeY : ℝ
  rotate : Vec3

/-- Embedding of the `Lander` state (src/lander.rs). -/
structure Lander where
  position : Vec3
  velocity : Vec3
  rotation : Quat
  angularVelocity : Vec3
  dryMass : ℝ
  payloadMass : ℝ
  fuelMass : ℝ
  dcsThrust : ℝ
  rcsThrust : ℝ
  rcsTorque : ℝ
  landingZoneRadius : ℕ
  rod : RodController

namespace Lander

/-- Embeds `Lander::new`. -/
noncomputable def new (position : Vec3) (landingZoneRadius : ℕ) : Lander :=
  { position := position
    velocity := Vec3.zero
    rotation := Quat.identity
    angularVelocity := Vec3.zero
    dryMass := APOLLO_LANDER_DRY_MASS_KG
    payloadMass := APOLLO_LANDER_PAYLOAD_MASS_KG
    fuelMass := APOLLO_LANDER_INITIAL_FUEL_MASS_KG
    dcsThrust := APOLLO_LANDER_DCS_THRUST_N
    rcsThrust := APOLLO_LANDER_RCS_THRUST_N
    rcsTorque := APOLLO_LANDER_RCS_TORQUE_NM
    landingZoneRadius := landingZoneRadius
    rod := VerticalVelocityController.new 0 APOLLO_LANDER_DCS_THRUST_N }

/-- Embeds `Lander::stop`. -/
def stop (l : Lander) : Lander :=
  { l with velocity := Vec3.zero, angularVelocity := Vec3.zero }

/-- Tilt from upright in radians (`Lander::tilt`): the angle between the
body up axis rotated into world space and the world up axis. -/
noncomputable def tilt (l : Lander) : ℝ :=
  (l.rotation.mulVec3 Vec3.unitZ).angleBetween Vec3.unitZ

/-- Embeds `Lander::step`: one fixed-timestep update of the vehicle state.  The
per-tick sequence follows the source exactly: set the rate-of-descent
target; if fuel remains, run the throttle controller, apply thrust along
the rotated body up axis and consume fuel floored at zero; then apply
strafe, gravity, torque, angular damping, and integrate position and
orientation. -/
noncomputable def step (l : Lander) (dt : ℝ) (controls : ControlsSnapshot) : Lander :=
  let rod0 := l.rod.setTarget controls.rateOfDescent
  let totalMass := l.dryMass + l.payloadMass + l.fuelMass
  -- The thrust block runs only while fuel remains.
  let thrustRes :=
    if 0 < l.fuelMass then
      let ct := rod0.computeThrottle l.velocity.z totalMass l.tilt dt
      let rod1 := ct.1
      let throttle := ct.2
      let thrustDir := l.rotation.mulVec3 Vec3.unitZ
      let thrustForce := Vec3.smul (throttle * l.dcsThrust) thrustDir
      let velocity1 := l.velocity.add (Vec3.smul dt (thrustForce.divScalar totalMass))
      let fuelConsumed := throttle * APOLLO_LANDER_FUEL_BURN_RATE_KGPS * dt
      (rod1, velocity1, max (l.fuelMass - fuelConsumed) 0)
    else
      (rod0, l.velocity, l.fuelMass)
  let rod1 := thrustRes.1
  let velocity1 := thrustRes.2.1
  let fuel1 := thrustRes.2.2
  -- Apply strafe.
  let strafeForce :=
    Vec3.smul l.rcsThrust (l.rotation.mulVec3 ⟨controls.strafeX, controls.strafeY, 0⟩)
  let velocity2 := velocity1.add (Vec3.smul dt (strafeForce.divScalar totalMass))
  -- Apply gravity.
  let velocity3 := velocity2.add (Vec3.smul dt (Vec3.smul MOON_GRAVITY Vec3.unitZ))
  -- Apply torque.
  let torque := Vec3.smul l.rcsTorque controls.rotate
  let inertia := Vec3.smul totalMass APOLLO_LANDER_INERTIA
  let angular1 := l.angularVelocity.add (Vec3.smul dt (torque.hdiv inertia))
  -- Dampen rotational velocity.
  let angular2 := Vec3.smul 0.999 angular1
  -- Update position and orientation.
  { l with
    rod := rod1
    fuelMass := fuel1
    velocity := velocity3
    angularVelocity := angular2
    position := l.position.add (Vec3.smul dt velocity3)
    rotation := l.rotation.mul
      (Quat.fromEulerXYZ (angular2.x * dt) (angular2.y * dt) (angular2.z * dt)) }

/-- Embeds `Lander::has_landed`. -/
def hasLanded (l : Lander) : Prop := l.position.z ≤ 0

noncomputable instance (l : Lander) : Decidable l.hasLanded :=
  inferInstanceAs (Decidable (l.position.z ≤ 0))

/-- Vertical speed in meters per second. -/
def verticalSpeed (l : Lander) : ℝ := |l.velocity.z|

/-- Horizontal speed in meters per second. -/
noncomputable def horizontalSpeed (l : Lander) : ℝ :=
  Vec3.length ⟨l.velocity.x, l.velocity.y, 0⟩

/-- Angular speed in radians per second. -/
noncomputable def angularSpeed (l : Lander) : ℝ := l.angularVelocity.length

/-- Distance from the landing zone in meters (`Lander::distance_from_landing_zone`):
the full Euclidean norm of the position, which is expressed in the
landing-zone frame. -/
noncomputable def distanceFromLandingZone (l : Lander) : ℝ := l.position.length

end Lander

/-! ## Landing evaluation (src/lander.rs) -/

/-- Embeds `LandingStatus`. -/
inductive LandingStatus where
  | Landed
  | Missed
  | Crashed
deriving DecidableEq

/-- Embeds `LandingCriterionType`. -/
inductive LandingCriterionType where
  | VerticalSpeed
  | HorizontalSpeed
  | Tilt
  | AngularSpeed
  | DistanceFromLandingZone
deriving DecidableEq

/-- Embeds `LandingCriterion`: a criterion kind with its threshold and the
measured value. -/
structure LandingCriterion where
  type : LandingCriterionType
  max : ℝ
  actual : ℝ

namespace LandingCriterion

/-- Embeds `LandingCriterion::ok`. -/
def ok (c : LandingCriterion) : Prop := c.actual ≤ c.max

noncomputable instance (c : LandingCriterion) : Decidable c.ok :=
  inferInstanceAs (Decidable (c.actual ≤ c.max))

/-- Embeds `LandingCriterion::score`. -/
noncomputable def score (c : LandingCriterion) : ℝ := (c.max - c.actual) / c.max

end LandingCriterion

/-- The report payload (`LandingReportInner`), without the remark string
which carries no logic. -/
structure LandingReportInner where
  status : LandingStatus
  score : ℝ
  criteria : List LandingCriterion

namespace Lander

/-- Embeds `Lander::landing_criteria`: the five criteria in their fixed order. -/
noncomputable def landingCriteria (l : Lander) : List LandingCriterion :=
  [⟨.VerticalSpeed, 3, l.verticalSpeed⟩,
   ⟨.HorizontalSpeed, 1, l.horizontalSpeed⟩,
   ⟨.Tilt, 0.25, l.tilt⟩,
   ⟨.AngularSpeed, 0.25, l.angularSpeed⟩,
   ⟨.DistanceFromLandingZone, (l.landingZoneRadius : ℝ), l.distanceFromLandingZone⟩]

end Lander

/-- The accumulation loop of `Lander::landing_report`: fold over the
criteria, summing twice each score and latching the first criterion that
is not ok. -/
noncomputable def reportScan (criteria : List LandingCriterion) :
    ℝ × Option LandingCriterionType :=
  criteria.foldl
    (fun acc crit =>
      (acc.1 + crit.score * 2,
       if ¬ crit.ok ∧ acc.2 = none then some crit.type else acc.2))
    (0, none)

/-- The status match in `Lander::landing_report`. -/
def statusOfFirstProblem : Option LandingCriterionType → LandingStatus
  | none => .Landed
  | some .DistanceFromLandingZone => .Missed
  | some _ => .Crashed

namespace Lander

/-- Embeds `Lander::landing_report`: `None` while airborne, otherwise the scanned
criteria with classification and score. -/
noncomputable def landingReport (l : Lander) : Option LandingReportInner :=
  if l.hasLanded then
    let criteria := l.landingCriteria
    let scan := reportScan criteria
    some ⟨statusOfFirstProblem scan.2, scan.1, criteria⟩
  else
    none

end Lander

/-! ## Terrain height map (src/main.rs; the src/landscape/height_map.rs
variant differs only in grid size).  The height buffer is stored in the
source as a flat vector indexed by `ix * depth + iy`; for the in-bounds
indices the loops touch, that indexing is a bijection with coordinate
pairs, so the buffer is embedded as a function of the pair. -/

/-- Embeds `LANDING_ZONE_RADIUS` (src/main.rs). -/
def LANDING_ZONE_RADIUS : ℕ := 5

/-- Embeds `LANDING_ZONE_BLEND_RADIUS` (src/main.rs). -/
def LANDING_ZONE_BLEND_RADIUS : ℕ := 7

/-- Embedding of `HeightMap`. -/
structure HeightMap where
  width : ℕ
  depth : ℕ
  landingZone : Vec3
  z : ℕ → ℕ → ℝ

namespace HeightMap

/-- Embeds `HeightMap::get`. -/
def get (hm : HeightMap) (ix iy : ℕ) : ℝ := hm.z ix iy

/-- Embeds `HeightMap::set`. -/
def set (hm : HeightMap) (ix iy : ℕ) (v : ℝ) : HeightMap :=
  { hm with z := fun a b => if a = ix ∧ b = iy then v else hm.z a b }

end HeightMap

/-- The closed range `lo..=hi` of a Rust for loop, as a list. -/
def rangeIcc (lo hi : ℕ) : List ℕ := (List.range (hi + 1 - lo)).map (lo + ·)

/-- The cells visited by the nested carve loops of
`HeightMap::set_landing_zone`: `ix` in `(cx-br)..=(cx+br)` and `iy` in
`(cy-br)..=(cy+br)` (outer loop over `ix`, inner over `iy`). -/
def carveCells (cx cy br : ℕ) : List (ℕ × ℕ) :=
  (rangeIcc (cx - br) (cx + br)).flatMap fun ix =>
    (rangeIcc (cy - br) (cy + br)).map fun iy => (ix, iy)

/-- The interpolation parameter of the carve: `t = clamp((d - radius)/2, 0, 1)`,
zero inside the flat zone and one at the edge of the blend radius. -/
noncomputable def blendT (dist : ℝ) : ℝ :=
  rustClamp ((dist - (LANDING_ZONE_RADIUS : ℝ)) / 2) 0 1

namespace HeightMap

/-- The body of the carve loops for one cell `p`: skip out-of-bounds cells,
compute the planar distance to the center, and inside the blend radius
interpolate between the captured center height `cz` and the current height. -/
noncomputable def carveOne (cx cy : ℕ) (cz : ℝ) (hm : HeightMap) (p : ℕ × ℕ) :
    HeightMap :=
  if p.1 < hm.width ∧ p.2 < hm.depth then
    let dx := (p.1 : ℝ) - (cx : ℝ)
    let dy := (p.2 : ℝ) - (cy : ℝ)
    let dist := Real.sqrt (dx * dx + dy * dy)
    if dist ≤ (LANDING_ZONE_BLEND_RADIUS : ℝ) then
      let t := blendT dist
      hm.set p.1 p.2 ((1 - t) * cz + t * hm.get p.1 p.2)
    else hm
  else hm

/-- Embeds `HeightMap::set_landing_zone`: capture the center height, run the carve
loops, then record the landing zone center. -/
noncomputable def setLandingZone (hm : HeightMap) (cx cy : ℕ) : HeightMap :=
  let cz := hm.get cx cy
  let hm1 := (carveCells cx cy LANDING_ZONE_BLEND_RADIUS).foldl (carveOne cx cy cz) hm
  { hm1 with landingZone := ⟨(cx : ℝ), (cy : ℝ), cz⟩ }

/-- The support of one `rng.random_range(margin..max.saturating_sub(margin))`
draw in `HeightMap::random_range`: the half-open interval from `margin` to
`max - margin` (natural subtraction mirrors `saturating_sub`). -/
def drawInRange (margin maxv v : ℕ) : Prop := margin ≤ v ∧ v < maxv - margin

/-- The two draws of `HeightMap::set_random_landing_zone`, both with margin
`LANDING_ZONE_BLEND_RADIUS * 2`. -/
def validDraws (hm : HeightMap) (rx ry : ℕ) : Prop :=
  drawInRange (LANDING_ZONE_BLEND_RADIUS * 2) hm.width rx ∧
    drawInRange (LANDING_ZONE_BLEND_RADIUS * 2) hm.depth ry

/-- Embeds `HeightMap::set_random_landing_zone`, with the two random draws made
explicit: the drawn coordinates become the zone center. -/
noncomputable def setRandomLandingZone (hm : HeightMap) (rx ry : ℕ) : HeightMap :=
  hm.setLandingZone rx ry

end HeightMap

/-! ## Button edge counter (src/controls.rs).  Instants are embedded as
natural numbers (milliseconds); `Instant::now()` becomes the explicit
`now` argument of `update`. -/

/-- Embedding of `Button`. -/
structure Button where
  pressed : Bool
  count : ℕ
  timeout : Option ℕ
  deadline : Option ℕ
deriving DecidableEq

namespace Button

/-- The derived `Default`: released, zero count, no repeat timer. -/
def mkDefault : Button := ⟨false, 0, none, none⟩

/-- Embeds `Button::with_repeater`. -/
def withRepeater (t : ℕ) : Button := ⟨false, 0, some t, none⟩

/-- Embeds `Button::update`.  First the repeat-timer check: the source clears the
debounced flag when `deadline.is_some_and(|t| t > Instant::now())`, that
is, when the stored deadline is still in the future.  Then the
edge-transition match on (sample, debounced flag). -/
def update (b : Button) (p : Bool) (now : ℕ) : Button :=
  let b1 :=
    match b.deadline with
    | some t => if now < t then { b with pressed := false, deadline := none } else b
    | none => b
  match p, b1.pressed with
  | true, false =>
      { b1 with
        pressed := true
        count := b1.count + 1
        deadline :=
          match b1.timeout with
          | some tmo => some (now + tmo)
          | none => b1.deadline }
  | false, true => { b1 with pressed := false }
  | _, _ => b1

/-- Embeds `Button::get`. -/
def get (b : Button) : ℕ := b.count

/-- Embeds `Button::get_and_reset`. -/
def getAndReset (b : Button) : ℕ × Button := (b.count, { b with count := 0 })

end Button

/-! ## Theorems -/

/-- Helper: the Rust clamp into [0, 1] is at least 0. -/
theorem rustClamp_nonneg (v : ℝ) : 0 ≤ rustClamp v 0 1 :=
  le_min (le_max_right v 0) zero_le_one

/-- Helper: the Rust clamp into [0, 1] is at most 1. -/
theorem rustClamp_le_one (v : ℝ) : rustClamp v 0 1 ≤ 1 :=
  min_le_right _ _

/-- C4: for every finite target and current velocity, mass above zero, tilt
in [0, pi/2) and dt above zero, `compute_throttle` returns a value in the
closed interval [0, 1] (the final clamp guarantees the bounds). -/
theorem computeThrottle_in_unit_interval (c : VerticalVelocityController)
    (current mass tilt dt : ℝ) (hmass : 0 < mass) (htilt0 : 0 ≤ tilt)
    (htilt1 : tilt < Real.pi / 2) (hdt : 0 < dt) :
    0 ≤ (c.computeThrottle current mass tilt dt).2 ∧
      (c.computeThrottle current mass tilt dt).2 ≤ 1 := by
  unfold VerticalVelocityController.computeThrottle
  exact ⟨rustClamp_nonneg _, rustClamp_le_one _⟩

/-- Witness for C4 at a concrete controller and inputs. -/
theorem computeThrottle_in_unit_interval_witness :
    0 ≤ ((VerticalVelocityController.new 0 45000).computeThrottle 2 15200 0 1).2 ∧
      ((VerticalVelocityController.new 0 45000).computeThrottle 2 15200 0 1).2 ≤ 1 :=
  computeThrottle_in_unit_interval (VerticalVelocityController.new 0 45000) 2 15200 0 1
    (by norm_num) le_rfl (by positivity) one_pos

/-- C8: with no repeat timer the counter increments exactly on a
false-to-true transition, a sample equal to the debounced state is a no-op,
and the sample sequence true, true, false, true from the default button
yields count 2. -/
theorem button_edge_counting (b : Button) (p : Bool) (now : ℕ)
    (htimeout : b.timeout = none) (hdeadline : b.deadline = none) :
    ((b.update p now).count = b.count + (if p = true ∧ b.pressed = false then 1 else 0)) ∧
      (p = b.pressed → b.update p now = b) ∧
      ((((Button.mkDefault.update true 0).update true 1).update false 2).update true 3).count = 2 := by
  refine ⟨?_, ?_, by decide⟩
  · unfold Button.update
    rw [hdeadline]
    rcases p <;> rcases hp : b.pressed <;> simp [hp, htimeout]
  · intro hpb
    unfold Button.update
    rw [hdeadline]
    rcases p <;> rcases hp : b.pressed <;> simp_all

/-- Witness for C8 at a concrete button and sample. -/
theorem button_edge_counting_witness :
    ((Button.mkDefault.update true 5).count =
        Button.mkDefault.count + (if true = true ∧ Button.mkDefault.pressed = false then 1 else 0)) ∧
      (true = Button.mkDefault.pressed → Button.mkDefault.update true 5 = Button.mkDefault) ∧
      ((((Button.mkDefault.update true 0).update true 1).update false 2).update true 3).count = 2 :=
  button_edge_counting Button.mkDefault true 5 rfl rfl

/-- C9 (code bug witness): for a button with the default 100ms repeat
timer, pressed at time 0 and held, an update at time 50 — before the
stored deadline of 100 has elapsed — clears the debounced flag and
re-triggers (count reaches 2), while an update at time 150 — after the
deadline has elapsed — does not clear it and never re-triggers (count
stays 1, pressed stays true).  The source condition
`deadline.is_some_and(|t| t > Instant::now())` fires while the deadline is
still in the future, the opposite of the documented auto-repeat cadence. -/
theorem button_repeat_inverted :
    ((((Button.withRepeater 100).update true 0).update true 50).count = 2) ∧
      ((((Button.withRepeater 100).update true 0).update true 150).count = 1) ∧
      ((((Button.withRepeater 100).update true 0).update true 150).pressed = true) := by
  decide

/-- A sequence of `step` calls: each list entry carries the timestep and the
control inputs for one call. -/
noncomputable def stepSeq (l : Lander) (inputs : List (ℝ × ControlsSnapshot)) : Lander :=
  inputs.foldl (fun s i => s.step i.1 i.2) l

/-- Helper: one step with a non-negative timestep neither increases the fuel
mass nor drives it below zero. -/
theorem step_fuel_le (l : Lander) (dt : ℝ) (c : ControlsSnapshot)
    (hdt : 0 ≤ dt) (hfuel : 0 ≤ l.fuelMass) :
    (l.step dt c).fuelMass ≤ l.fuelMass ∧ 0 ≤ (l.step dt c).fuelMass := by
  unfold Lander.step
  by_cases h : 0 < l.fuelMass
  · simp only [h, if_true]
    constructor
    · refine max_le (sub_le_self _ ?_) (le_of_lt h)
      have h0 : 0 ≤ ((l.rod.setTarget c.rateOfDescent).computeThrottle l.velocity.z
          (l.dryMass + l.payloadMass + l.fuelMass) l.tilt dt).2 := by
        unfold VerticalVelocityController.computeThrottle
        exact rustClamp_nonneg _
      have hb : (0:ℝ) ≤ APOLLO_LANDER_FUEL_BURN_RATE_KGPS := by
        norm_num [APOLLO_LANDER_FUEL_BURN_RATE_KGPS]
      positivity
    · exact le_max_right _ _
  · simp only [h, if_false]
    exact ⟨le_rfl, hfuel⟩

/-- C3: across every sequence of `step` calls with non-negative timesteps
and arbitrary control inputs, starting from non-negative fuel, the fuel
mass never increases and never becomes negative (the subtraction in the
thrust branch is floored at 0). -/
theorem fuel_monotone_nonneg (l : Lander) (inputs : List (ℝ × ControlsSnapshot))
    (hdt : ∀ i ∈ inputs, 0 ≤ i.1) (hfuel : 0 ≤ l.fuelMass) :
    (stepSeq l inputs).fuelMass ≤ l.fuelMass ∧ 0 ≤ (stepSeq l inputs).fuelMass := by
  induction inputs generalizing l with
  | nil => exact ⟨le_rfl, hfuel⟩
  | cons i rest ih =>
      have hi : 0 ≤ i.1 := hdt i (List.mem_cons_self i rest)
      have hstep := step_fuel_le l i.1 i.2 hi hfuel
      have hrest := ih (l.step i.1 i.2) (fun j hj => hdt j (List.mem_cons_of_mem i hj))
        hstep.2
      exact ⟨le_trans hrest.1 hstep.1, hrest.2⟩

/-- A concrete lander used by several witnesses: the apollo lander fifty
meters above the zone center. -/
noncomputable def hoverLander : Lander := Lander.new ⟨0, 0, 50⟩ 5

/-- Neutral control inputs. -/
def idleControls : ControlsSnapshot := ⟨0, 0, 0, Vec3.zero⟩

/-- Witness for C3 at a concrete lander and a two-step input sequence. -/
theorem fuel_monotone_nonneg_witness :
    (stepSeq hoverLander [((1:ℝ)/30, idleControls), ((1:ℝ)/30, idleControls)]).fuelMass ≤
        hoverLander.fuelMass ∧
      0 ≤ (stepSeq hoverLander [((1:ℝ)/30, idleControls), ((1:ℝ)/30, idleControls)]).fuelMass :=
  fuel_monotone_nonneg hoverLander [((1:ℝ)/30, idleControls), ((1:ℝ)/30, idleControls)]
    (by intro i hi; simp only [List.mem_cons, List.not_mem_nil, or_false] at hi
        rcases hi with rfl | rfl <;> norm_num)
    (by norm_num [hoverLander, Lander.new, APOLLO_LANDER_INITIAL_FUEL_MASS_KG])

/-- C10: with the fuel mass at zero, a step applies no main-engine thrust
and leaves the fuel and the whole PID state (integral and previous error
included) untouched, while strafe, gravity, torque, damping and the
position and orientation integration still take effect. -/
theorem step_without_fuel (l : Lander) (dt : ℝ) (c : ControlsSnapshot)
    (h : l.fuelMass = 0) :
    (l.step dt c).fuelMass = 0 ∧
      (l.step dt c).rod.pid = l.rod.pid ∧
      (l.step dt c).velocity =
        (l.velocity.add (Vec3.smul dt
            ((Vec3.smul l.rcsThrust (l.rotation.mulVec3 ⟨c.strafeX, c.strafeY, 0⟩)).divScalar
              (l.dryMass + l.payloadMass + l.fuelMass)))).add
          (Vec3.smul dt (Vec3.smul MOON_GRAVITY Vec3.unitZ)) ∧
      (l.step dt c).angularVelocity =
        Vec3.smul 0.999 (l.angularVelocity.add (Vec3.smul dt
          ((Vec3.smul l.rcsTorque c.rotate).hdiv
            (Vec3.smul (l.dryMass + l.payloadMass + l.fuelMass) APOLLO_LANDER_INERTIA)))) ∧
      (l.step dt c).position = l.position.add (Vec3.smul dt (l.step dt c).velocity) ∧
      (l.step dt c).rotation = l.rotation.mul
        (Quat.fromEulerXYZ ((l.step dt c).angularVelocity.x * dt)
          ((l.step dt c).angularVelocity.y * dt) ((l.step dt c).angularVelocity.z * dt)) := by
  have hnot : ¬ 0 < l.fuelMass := by rw [h]; exact lt_irrefl 0
  unfold Lander.step
  simp only [hnot, if_false]
  refine ⟨?_, ?_, ?_, ?_, ?_, ?_⟩ <;> first | exact h | trivial

/-- The hover lander with its tank empty. -/
noncomputable def emptyLander : Lander := { hoverLander with fuelMass := 0 }

/-- Witness for C10 at a concrete fuel-less lander. -/
theorem step_without_fuel_witness :
    (emptyLander.step (1/30) idleControls).fuelMass = 0 ∧
      (emptyLander.step (1/30) idleControls).rod.pid = emptyLander.rod.pid ∧
      (emptyLander.step (1/30) idleControls).velocity =
        (emptyLander.velocity.add (Vec3.smul (1/30)
            ((Vec3.smul emptyLander.rcsThrust
              (emptyLander.rotation.mulVec3 ⟨idleControls.strafeX, idleControls.strafeY, 0⟩)).divScalar
              (emptyLander.dryMass + emptyLander.payloadMass + emptyLander.fuelMass)))).add
          (Vec3.smul (1/30) (Vec3.smul MOON_GRAVITY Vec3.unitZ)) ∧
      (emptyLander.step (1/30) idleControls).angularVelocity =
        Vec3.smul 0.999 (emptyLander.angularVelocity.add (Vec3.smul (1/30)
          ((Vec3.smul emptyLander.rcsTorque idleControls.rotate).hdiv
            (Vec3.smul (emptyLander.dryMass + emptyLander.payloadMass + emptyLander.fuelMass)
              APOLLO_LANDER_INERTIA)))) ∧
      (emptyLander.step (1/30) idleControls).position =
        emptyLander.position.add
          (Vec3.smul (1/30) (emptyLander.step (1/30) idleControls).velocity) ∧
      (emptyLander.step (1/30) idleControls).rotation = emptyLander.rotation.mul
        (Quat.fromEulerXYZ ((emptyLander.step (1/30) idleControls).angularVelocity.x * (1/30))
          ((emptyLander.step (1/30) idleControls).angularVelocity.y * (1/30))
          ((emptyLander.step (1/30) idleControls).angularVelocity.z * (1/30))) :=
  step_without_fuel emptyLander (1/30) idleControls rfl

/-- Helper: the first criterion of a list that is not ok, if any. -/
noncomputable def firstFailure : List LandingCriterion → Option LandingCriterionType
  | [] => none
  | c :: cs => if c.ok then firstFailure cs else some c.type

/-- Helper: once the scan has latched a first problem it never changes. -/
theorem reportScan_latched (cs : List LandingCriterion) (s : ℝ)
    (t : LandingCriterionType) :
    (cs.foldl
      (fun acc crit =>
        (acc.1 + crit.score * 2,
         if ¬ crit.ok ∧ acc.2 = none then some crit.type else acc.2))
      (s, some t)).2 = some t := by
  induction cs generalizing s with
  | nil => rfl
  | cons c cs ih =>
      simp only [List.foldl, reduceCtorEq, and_false, if_false]
      exact ih _

/-- Helper: starting from an unlatched accumulator, the scan latches the
first failing criterion. -/
theorem reportScan_firstFailure_aux (cs : List LandingCriterion) (s : ℝ) :
    (cs.foldl
      (fun acc crit =>
        (acc.1 + crit.score * 2,
         if ¬ crit.ok ∧ acc.2 = none then some crit.type else acc.2))
      (s, none)).2 = firstFailure cs := by
  induction cs generalizing s with
  | nil => rfl
  | cons c cs ih =>
      simp only [List.foldl, firstFailure]
      by_cases hc : c.ok
      · simp only [hc, not_true, false_and, if_false, if_true]
        exact ih _
      · simp only [hc, not_false_iff, and_true, if_true, if_neg hc]
        exact reportScan_latched cs _ c.type

/-- Helper: the latched component of the scan is the first failure. -/
theorem reportScan_snd (cs : List LandingCriterion) :
    (reportScan cs).2 = firstFailure cs :=
  reportScan_firstFailure_aux cs 0

/-- Helper: the score component of the scan is the sum of twice the
criterion scores. -/
theorem reportScan_fst_aux (cs : List LandingCriterion)
    (acc : ℝ × Option LandingCriterionType) :
    (cs.foldl
      (fun acc crit =>
        (acc.1 + crit.score * 2,
         if ¬ crit.ok ∧ acc.2 = none then some crit.type else acc.2))
      acc).1 = acc.1 + (cs.map (fun c => c.score * 2)).sum := by
  induction cs generalizing acc with
  | nil => simp
  | cons c cs ih =>
      simp only [List.foldl, List.map, List.sum_cons]
      rw [ih]
      ring_nf

/-- C1: for every landed state the report classification is decided by the
first failing criterion in the fixed order vertical speed, horizontal
speed, tilt, angular speed, distance: all pass gives Landed, a failure
among the first four gives Crashed, and a failure only at the distance
criterion gives Missed. -/
theorem landing_status_first_failure (l : Lander) (h : l.hasLanded) :
    Option.map LandingReportInner.status l.landingReport =
      some
        (if l.verticalSpeed ≤ 3 ∧ l.horizontalSpeed ≤ 1 ∧ l.tilt ≤ 0.25 ∧
            l.angularSpeed ≤ 0.25 then
          (if l.distanceFromLandingZone ≤ (l.landingZoneRadius : ℝ) then
            LandingStatus.Landed
          else LandingStatus.Missed)
        else LandingStatus.Crashed) := by
  simp only [Lander.landingReport, h, if_true, Option.map_some, Option.some.injEq]
  rw [reportScan_snd]
  by_cases h1 : l.verticalSpeed ≤ 3 <;>
    by_cases h2 : l.horizontalSpeed ≤ 1 <;>
      by_cases h3 : l.tilt ≤ 0.25 <;>
        by_cases h4 : l.angularSpeed ≤ 0.25 <;>
          by_cases h5 : l.distanceFromLandingZone ≤ (l.landingZoneRadius : ℝ) <;>
            simp [Lander.landingCriteria, firstFailure, LandingCriterion.ok,
              statusOfFirstProblem, h1, h2, h3, h4, h5]

/-- A landed state with every criterion passing, used by witnesses. -/
noncomputable def landedLander : Lander := Lander.new ⟨0, 0, 0⟩ 5

/-- Witness for C1 at a concrete landed state. -/
theorem landing_status_first_failure_witness :
    Option.map LandingReportInner.status landedLander.landingReport =
      some
        (if landedLander.verticalSpeed ≤ 3 ∧ landedLander.horizontalSpeed ≤ 1 ∧
            landedLander.tilt ≤ 0.25 ∧ landedLander.angularSpeed ≤ 0.25 then
          (if landedLander.distanceFromLandingZone ≤ (landedLander.landingZoneRadius : ℝ) then
            LandingStatus.Landed
          else LandingStatus.Missed)
        else LandingStatus.Crashed) :=
  landing_status_first_failure landedLander le_rfl

/-- C2: for every landed state with a positive landing-zone radius, the
report score is the sum over the five criteria of 2 * (max - actual) / max,
and the contribution of a failing criterion is negative. -/
theorem landing_score_sum (l : Lander) (h : l.hasLanded)
    (hr : 0 < l.landingZoneRadius) :
    Option.map LandingReportInner.score l.landingReport =
      some ((l.landingCriteria.map fun c => 2 * (c.max - c.actual) / c.max).sum) ∧
      ∀ c ∈ l.landingCriteria, ¬ c.ok → 2 * (c.max - c.actual) / c.max < 0 := by
  constructor
  · unfold Lander.landingReport reportScan
    rw [if_pos h]
    simp only [Option.map_some', Option.some.injEq]
    rw [reportScan_fst_aux]
    rw [show (fun c : LandingCriterion => c.score * 2) =
        (fun c : LandingCriterion => 2 * (c.max - c.actual) / c.max) from
      funext fun c => by unfold LandingCriterion.score; ring]
    simp
  · intro c hc hbad
    have hmax : 0 < c.max := by
      simp only [Lander.landingCriteria, List.mem_cons, List.not_mem_nil, or_false] at hc
      rcases hc with rfl | rfl | rfl | rfl | rfl
      · norm_num
      · norm_num
      · norm_num
      · norm_num
      · show (0:ℝ) < (l.landingZoneRadius : ℝ)
        exact_mod_cast hr
    have hlt : c.max < c.actual := lt_of_not_le hbad
    have hnum : 2 * (c.max - c.actual) < 0 := by linarith
    exact div_neg_of_neg_of_pos hnum hmax

/-- Witness for C2 at a concrete landed state. -/
theorem landing_score_sum_witness :
    (Option.map LandingReportInner.score landedLander.landingReport =
      some ((landedLander.landingCriteria.map fun c => 2 * (c.max - c.actual) / c.max).sum)) ∧
      ∀ c ∈ landedLander.landingCriteria, ¬ c.ok → 2 * (c.max - c.actual) / c.max < 0 :=
  landing_score_sum landedLander le_rfl (by norm_num [landedLander, Lander.new])

/-- Modelled from the spec for comparison: the planar distance of the
lander from the landing-zone center, ignoring the vertical component, as
the distance criterion is described in the spec. -/
noncomputable def specPlanarDistance (l : Lander) : ℝ :=
  Real.sqrt (l.position.x ^ 2 + l.position.y ^ 2)

/-- A landed state three meters east, four meters north and one meter below
the zone center. -/
noncomputable def offsetLander : Lander := Lander.new ⟨3, 4, -1⟩ 5

/-- C7 counterexample: at the landed state with position (3, 4, -1) the
measured value of the distance criterion is the full three-dimensional
norm sqrt 26, not the planar distance sqrt (3^2 + 4^2) = 5. -/
theorem distance_criterion_not_planar :
    offsetLander.hasLanded ∧
      ∃ c ∈ offsetLander.landingCriteria,
        c.type = LandingCriterionType.DistanceFromLandingZone ∧
          c.actual ≠ specPlanarDistance offsetLander := by
  refine ⟨by norm_num [offsetLander, Lander.new, Lander.hasLanded], ?_⟩
  refine ⟨⟨.DistanceFromLandingZone, ((5:ℕ) : ℝ),
    offsetLander.distanceFromLandingZone⟩, ?_, rfl, ?_⟩
  · simp [Lander.landingCriteria, offsetLander, Lander.new]
  · show offsetLander.distanceFromLandingZone ≠ specPlanarDistance offsetLander
    have hval : offsetLander.distanceFromLandingZone = Real.sqrt 26 := by
      simp only [Lander.distanceFromLandingZone, offsetLander, Lander.new, Vec3.length,
        Vec3.lengthSquared, Vec3.dot]
      norm_num
    have hspec : specPlanarDistance offsetLander = 5 := by
      simp only [specPlanarDistance, offsetLander, Lander.new]
      rw [show ((3:ℝ) ^ 2 + 4 ^ 2) = 5 ^ 2 by norm_num]
      exact Real.sqrt_sq (by norm_num)
    rw [hval, hspec]
    intro hbad
    have h26 : Real.sqrt 26 ^ 2 = 26 := Real.sq_sqrt (by norm_num)
    rw [hbad] at h26
    norm_num at h26

/-- C7 amended: the measured value of the distance criterion is the full
three-dimensional Euclidean norm of the position relative to the zone
center, compared against the zone radius; it coincides with the planar
distance exactly when the vertical component is zero. -/
theorem distance_criterion_norm (l : Lander) (h : l.hasLanded) :
    ∀ c ∈ l.landingCriteria, c.type = LandingCriterionType.DistanceFromLandingZone →
      c.actual = Real.sqrt (l.position.x ^ 2 + l.position.y ^ 2 + l.position.z ^ 2) ∧
        c.max = (l.landingZoneRadius : ℝ) ∧
        (l.position.z = 0 → c.actual = specPlanarDistance l) := by
  intro c hc htype
  simp only [Lander.landingCriteria, List.mem_cons, List.not_mem_nil, or_false] at hc
  have hnorm : l.distanceFromLandingZone =
      Real.sqrt (l.position.x ^ 2 + l.position.y ^ 2 + l.position.z ^ 2) := by
    simp only [Lander.distanceFromLandingZone, Vec3.length, Vec3.lengthSquared, Vec3.dot]
    ring_nf
  rcases hc with rfl | rfl | rfl | rfl | rfl
  · exact absurd htype (by simp)
  · exact absurd htype (by simp)
  · exact absurd htype (by simp)
  · exact absurd htype (by simp)
  · refine ⟨hnorm, rfl, ?_⟩
    intro hz
    rw [hnorm, hz, specPlanarDistance]
    norm_num

/-- Helper: the height a single carve visit leaves at its own cell, as a
function of the grid bounds and the previous height of that cell. -/
noncomputable def carveVal (cx cy : ℕ) (cz : ℝ) (w d : ℕ) (h : ℝ) (p : ℕ × ℕ) : ℝ :=
  if p.1 < w ∧ p.2 < d then
    let dx := (p.1 : ℝ) - (cx : ℝ)
    let dy := (p.2 : ℝ) - (cy : ℝ)
    let dist := Real.sqrt (dx * dx + dy * dy)
    if dist ≤ (LANDING_ZONE_BLEND_RADIUS : ℝ) then
      let t := blendT dist
      (1 - t) * cz + t * h
    else h
  else h

namespace HeightMap

theorem get_set_self (hm : HeightMap) (ix iy : ℕ) (v : ℝ) :
    (hm.set ix iy v).get ix iy = v := by
  simp [get, set]

theorem get_set_ne (hm : HeightMap) (ix iy a b : ℕ) (v : ℝ)
    (h : ¬(a = ix ∧ b = iy)) : (hm.set ix iy v).get a b = hm.get a b := by
  simp [get, set, h]

theorem carveOne_width (cx cy : ℕ) (cz : ℝ) (hm : HeightMap) (p : ℕ × ℕ) :
    (carveOne cx cy cz hm p).width = hm.width := by
  unfold carveOne
  dsimp only
  split_ifs <;> rfl

theorem carveOne_depth (cx cy : ℕ) (cz : ℝ) (hm : HeightMap) (p : ℕ × ℕ) :
    (carveOne cx cy cz hm p).depth = hm.depth := by
  unfold carveOne
  dsimp only
  split_ifs <;> rfl

theorem carveOne_get_ne (cx cy : ℕ) (cz : ℝ) (hm : HeightMap) (p : ℕ × ℕ)
    (a b : ℕ) (hne : p ≠ (a, b)) :
    (carveOne cx cy cz hm p).get a b = hm.get a b := by
  unfold carveOne
  dsimp only
  split_ifs with h1 h2
  · exact get_set_ne hm p.1 p.2 a b _
      (fun hab => hne (Prod.ext hab.1.symm hab.2.symm))
  · rfl
  · rfl

theorem carveOne_get_self (cx cy : ℕ) (cz : ℝ) (hm : HeightMap) (p : ℕ × ℕ) :
    (carveOne cx cy cz hm p).get p.1 p.2 =
      carveVal cx cy cz hm.width hm.depth (hm.get p.1 p.2) p := by
  unfold carveOne carveVal
  dsimp only
  split_ifs with h1 h2
  · exact get_set_self hm p.1 p.2 _
  · rfl
  · rfl

theorem foldl_carveOne_width (cx cy : ℕ) (cz : ℝ) (L : List (ℕ × ℕ))
    (hm : HeightMap) :
    (L.foldl (carveOne cx cy cz) hm).width = hm.width := by
  induction L generalizing hm with
  | nil => rfl
  | cons p L ih => rw [List.foldl_cons, ih, carveOne_width]

theorem foldl_carveOne_depth (cx cy : ℕ) (cz : ℝ) (L : List (ℕ × ℕ))
    (hm : HeightMap) :
    (L.foldl (carveOne cx cy cz) hm).depth = hm.depth := by
  induction L generalizing hm with
  | nil => rfl
  | cons p L ih => rw [List.foldl_cons, ih, carveOne_depth]

/-- Helper: because every carve visit writes only its own cell and reads
only that same cell, a fold over pairwise-distinct cells acts pointwise. -/
theorem foldl_carveOne_get (cx cy : ℕ) (cz : ℝ) (L : List (ℕ × ℕ))
    (hnd : L.Nodup) (hm : HeightMap) (a b : ℕ) :
    (L.foldl (carveOne cx cy cz) hm).get a b =
      if (a, b) ∈ L then carveVal cx cy cz hm.width hm.depth (hm.get a b) (a, b)
      else hm.get a b := by
  induction L generalizing hm with
  | nil => simp
  | cons p L ih =>
      obtain ⟨hpL, hndL⟩ := List.nodup_cons.mp hnd
      rw [List.foldl_cons]
      by_cases hp : (a, b) = p
      · subst hp
        rw [ih hndL, if_neg hpL, if_pos (List.mem_cons_self _ _)]
        exact carveOne_get_self cx cy cz hm (a, b)
      · rw [ih hndL, carveOne_width, carveOne_depth,
          carveOne_get_ne cx cy cz hm p a b (fun h => hp h.symm)]
        by_cases hmem : (a, b) ∈ L
        · rw [if_pos hmem, if_pos (List.mem_cons_of_mem _ hmem)]
        · rw [if_neg hmem, if_neg (by simp [hp, hmem])]

end HeightMap

theorem mem_rangeIcc (lo hi a : ℕ) : a ∈ rangeIcc lo hi ↔ lo ≤ a ∧ a ≤ hi := by
  simp only [rangeIcc, List.mem_map, List.mem_range]
  constructor
  · rintro ⟨k, hk, rfl⟩
    omega
  · rintro ⟨h1, h2⟩
    exact ⟨a - lo, by omega, by omega⟩

theorem nodup_rangeIcc (lo hi : ℕ) : (rangeIcc lo hi).Nodup :=
  (List.nodup_range _).map fun a b => by omega

theorem carveCells_eq_product (cx cy br : ℕ) :
    carveCells cx cy br =
      rangeIcc (cx - br) (cx + br) ×ˢ rangeIcc (cy - br) (cy + br) := rfl

theorem nodup_carveCells (cx cy br : ℕ) : (carveCells cx cy br).Nodup := by
  rw [carveCells_eq_product]
  exact (nodup_rangeIcc _ _).product (nodup_rangeIcc _ _)

theorem mem_carveCells (cx cy br a b : ℕ) :
    (a, b) ∈ carveCells cx cy br ↔
      (cx - br ≤ a ∧ a ≤ cx + br) ∧ (cy - br ≤ b ∧ b ≤ cy + br) := by
  rw [carveCells_eq_product, List.mem_product, mem_rangeIcc, mem_rangeIcc]

/-- Helper: the pointwise description of the carved grid. -/
theorem setLandingZone_get (hm : HeightMap) (cx cy a b : ℕ) :
    (hm.setLandingZone cx cy).get a b =
      if (a, b) ∈ carveCells cx cy LANDING_ZONE_BLEND_RADIUS then
        carveVal cx cy (hm.get cx cy) hm.width hm.depth (hm.get a b) (a, b)
      else hm.get a b := by
  show ((carveCells cx cy LANDING_ZONE_BLEND_RADIUS).foldl
      (HeightMap.carveOne cx cy (hm.get cx cy)) hm).get a b = _
  exact HeightMap.foldl_carveOne_get cx cy (hm.get cx cy) _
    (nodup_carveCells cx cy LANDING_ZONE_BLEND_RADIUS) hm a b

/-- The planar distance between grid cell (a, b) and the center (cx, cy),
written exactly as the carve loop computes it. -/
noncomputable def planarDist (cx cy a b : ℕ) : ℝ :=
  Real.sqrt (((a : ℝ) - (cx : ℝ)) * ((a : ℝ) - (cx : ℝ)) +
    ((b : ℝ) - (cy : ℝ)) * ((b : ℝ) - (cy : ℝ)))

/-- Helper: inside the flat zone the interpolation parameter is zero. -/
theorem blendT_eq_zero (d : ℝ) (hd : d ≤ (LANDING_ZONE_RADIUS : ℝ)) :
    blendT d = 0 := by
  unfold blendT rustClamp
  rw [max_eq_right, min_eq_left]
  · norm_num
  · have : (LANDING_ZONE_RADIUS : ℝ) = 5 := by norm_num [LANDING_ZONE_RADIUS]
    rw [this] at hd
    linarith

/-- Helper: at or beyond the blend radius the interpolation parameter is one. -/
theorem blendT_eq_one (d : ℝ) (hd : (LANDING_ZONE_BLEND_RADIUS : ℝ) ≤ d) :
    blendT d = 1 := by
  unfold blendT rustClamp
  rw [min_eq_right]
  refine le_max_of_le_left ?_
  have h5 : (LANDING_ZONE_RADIUS : ℝ) = 5 := by norm_num [LANDING_ZONE_RADIUS]
  have h7 : (LANDING_ZONE_BLEND_RADIUS : ℝ) = 7 := by norm_num [LANDING_ZONE_BLEND_RADIUS]
  rw [h5]
  rw [h7] at hd
  linarith

/-- Helper: a cell within the blend radius of the center lies inside the
square the carve loops visit. -/
theorem mem_carveCells_of_dist_le (cx cy a b : ℕ)
    (hd : planarDist cx cy a b ≤ (LANDING_ZONE_BLEND_RADIUS : ℝ)) :
    (a, b) ∈ carveCells cx cy LANDING_ZONE_BLEND_RADIUS := by
  have h7 : (LANDING_ZONE_BLEND_RADIUS : ℝ) = 7 := by norm_num [LANDING_ZONE_BLEND_RADIUS]
  rw [h7] at hd
  unfold planarDist at hd
  set dx := (a : ℝ) - (cx : ℝ) with hdx
  set dy := (b : ℝ) - (cy : ℝ) with hdy
  have hs : 0 ≤ dx * dx + dy * dy :=
    add_nonneg (mul_self_nonneg dx) (mul_self_nonneg dy)
  have hsq : dx * dx + dy * dy ≤ 49 := by
    have he := Real.sq_sqrt hs
    have hnn := Real.sqrt_nonneg (dx * dx + dy * dy)
    nlinarith [he, hd, hnn]
  have hdx1 : dx ≤ 7 := by nlinarith [sq_nonneg (dx - 7), sq_nonneg dy]
  have hdx2 : -7 ≤ dx := by nlinarith [sq_nonneg (dx + 7), sq_nonneg dy]
  have hdy1 : dy ≤ 7 := by nlinarith [sq_nonneg (dy - 7), sq_nonneg dx]
  have hdy2 : -7 ≤ dy := by nlinarith [sq_nonneg (dy + 7), sq_nonneg dx]
  have ha1 : cx ≤ a + 7 := by
    have : (cx : ℝ) ≤ (a : ℝ) + 7 := by rw [hdx] at hdx2; linarith
    exact_mod_cast this
  have ha2 : a ≤ cx + 7 := by
    have : (a : ℝ) ≤ (cx : ℝ) + 7 := by rw [hdx] at hdx1; linarith
    exact_mod_cast this
  have hb1 : cy ≤ b + 7 := by
    have : (cy : ℝ) ≤ (b : ℝ) + 7 := by rw [hdy] at hdy2; linarith
    exact_mod_cast this
  have hb2 : b ≤ cy + 7 := by
    have : (b : ℝ) ≤ (cy : ℝ) + 7 := by rw [hdy] at hdy1; linarith
    exact_mod_cast this
  rw [mem_carveCells]
  refine ⟨⟨?_, ?_⟩, ?_, ?_⟩ <;> simp [LANDING_ZONE_BLEND_RADIUS] <;> omega

/-- Helper: the value a carve visit writes at an in-bounds cell within the
blend radius. -/
theorem carveVal_in_blend (cx cy : ℕ) (cz : ℝ) (w d : ℕ) (h : ℝ) (a b : ℕ)
    (hw : a < w) (hdp : b < d)
    (hdist : planarDist cx cy a b ≤ (LANDING_ZONE_BLEND_RADIUS : ℝ)) :
    carveVal cx cy cz w d h (a, b) =
      (1 - blendT (planarDist cx cy a b)) * cz +
        blendT (planarDist cx cy a b) * h := by
  unfold planarDist at hdist
  unfold carveVal planarDist
  dsimp only
  rw [if_pos ⟨hw, hdp⟩, if_pos hdist]

/-- Helper: beyond the blend radius a carve visit leaves the cell alone. -/
theorem carveVal_out_blend (cx cy : ℕ) (cz : ℝ) (w d : ℕ) (h : ℝ) (a b : ℕ)
    (hdist : ¬ planarDist cx cy a b ≤ (LANDING_ZONE_BLEND_RADIUS : ℝ)) :
    carveVal cx cy cz w d h (a, b) = h := by
  unfold planarDist at hdist
  unfold carveVal
  dsimp only
  by_cases hb : a < w ∧ b < d
  · rw [if_pos hb, if_neg hdist]
  · rw [if_neg hb]

/-- C5: after carving a landing zone with sufficient margin from the grid
edges, every in-grid cell at planar distance at most the zone radius from
the center holds exactly the pre-carve center height; every in-grid cell
at distance at least the blend radius keeps its pre-carve height; every
in-grid cell of the annulus holds the interpolation
(1 - t) * center + t * original with t = clamp((d - radius)/2, 0, 1); and
the interpolation parameter is monotone in the distance. -/
theorem landing_zone_carving (hm : HeightMap) (cx cy : ℕ)
    (hxl : LANDING_ZONE_BLEND_RADIUS ≤ cx)
    (hxu : cx + LANDING_ZONE_BLEND_RADIUS < hm.width)
    (hyl : LANDING_ZONE_BLEND_RADIUS ≤ cy)
    (hyu : cy + LANDING_ZONE_BLEND_RADIUS < hm.depth) :
    (∀ a b : ℕ, a < hm.width → b < hm.depth →
      planarDist cx cy a b ≤ (LANDING_ZONE_RADIUS : ℝ) →
      (hm.setLandingZone cx cy).get a b = hm.get cx cy) ∧
    (∀ a b : ℕ, a < hm.width → b < hm.depth →
      (LANDING_ZONE_BLEND_RADIUS : ℝ) ≤ planarDist cx cy a b →
      (hm.setLandingZone cx cy).get a b = hm.get a b) ∧
    (∀ a b : ℕ, a < hm.width → b < hm.depth →
      (LANDING_ZONE_RADIUS : ℝ) ≤ planarDist cx cy a b →
      planarDist cx cy a b ≤ (LANDING_ZONE_BLEND_RADIUS : ℝ) →
      (hm.setLandingZone cx cy).get a b =
        (1 - blendT (planarDist cx cy a b)) * hm.get cx cy +
          blendT (planarDist cx cy a b) * hm.get a b) ∧
    (∀ d1 d2 : ℝ, d1 ≤ d2 → blendT d1 ≤ blendT d2) := by
  have h57 : (LANDING_ZONE_RADIUS : ℝ) ≤ (LANDING_ZONE_BLEND_RADIUS : ℝ) := by
    norm_num [LANDING_ZONE_RADIUS, LANDING_ZONE_BLEND_RADIUS]
  refine ⟨?_, ?_, ?_, ?_⟩
  · intro a b ha hb hd
    have hd7 : planarDist cx cy a b ≤ (LANDING_ZONE_BLEND_RADIUS : ℝ) := le_trans hd h57
    rw [setLandingZone_get, if_pos (mem_carveCells_of_dist_le cx cy a b hd7),
      carveVal_in_blend cx cy _ _ _ _ a b ha hb hd7, blendT_eq_zero _ hd]
    ring
  · intro a b ha hb hd
    by_cases hmem : (a, b) ∈ carveCells cx cy LANDING_ZONE_BLEND_RADIUS
    · rw [setLandingZone_get, if_pos hmem]
      by_cases hd7 : planarDist cx cy a b ≤ (LANDING_ZONE_BLEND_RADIUS : ℝ)
      · rw [carveVal_in_blend cx cy _ _ _ _ a b ha hb hd7, blendT_eq_one _ hd]
        ring
      · rw [carveVal_out_blend cx cy _ _ _ _ a b hd7]
    · rw [setLandingZone_get, if_neg hmem]
  · intro a b ha hb hd5 hd7
    rw [setLandingZone_get, if_pos (mem_carveCells_of_dist_le cx cy a b hd7),
      carveVal_in_blend cx cy _ _ _ _ a b ha hb hd7]
  · intro d1 d2 hdle
    unfold blendT rustClamp
    exact min_le_min (max_le_max (by linarith) le_rfl) le_rfl

/-- A flat two-hundred by two-hundred height map used by witnesses. -/
def flatMap200 : HeightMap := ⟨200, 200, ⟨0, 0, 0⟩, fun _ _ => 0⟩

/-- A flat one-hundred by one-hundred height map, the grid size of
src/main.rs. -/
def flatMap100 : HeightMap := ⟨100, 100, ⟨0, 0, 0⟩, fun _ _ => 0⟩

/-- The set of zone centers that `set_random_landing_zone` can produce on a
100 by 100 grid: one point for every pair of draws the two
`random_range(margin..width - margin)` calls can return. -/
noncomputable def codeCenterSupport : Set (ℝ × ℝ) :=
  {p | ∃ (hm : HeightMap) (rx ry : ℕ), hm.width = 100 ∧ hm.depth = 100 ∧
    hm.validDraws rx ry ∧
    p = ((hm.setRandomLandingZone rx ry).landingZone.x,
      (hm.setRandomLandingZone rx ry).landingZone.y)}

/-- Modelled from the spec: `create_landing_zone(rng, min_dist, max_dist,
radius)` is described as picking a random angle in [0, 2 pi) and a random
distance in [min_dist, max_dist] and placing the zone center at
grid_center + distance * (cos angle, sin angle); no such function exists in
the sources.  On the 100 by 100 grid the grid center is (50, 50); this is
the set of centers that scheme can produce. -/
noncomputable def specPolarSupport (minDist maxDist : ℝ) : Set (ℝ × ℝ) :=
  {p | ∃ angle dist : ℝ, 0 ≤ angle ∧ angle < 2 * Real.pi ∧
    minDist ≤ dist ∧ dist ≤ maxDist ∧
    p = (50 + dist * Real.cos angle, 50 + dist * Real.sin angle)}

/-- C6 counterexample: no choice of min_dist and max_dist makes the polar
placement produce exactly the centers the code can produce.  The code can
place the center at (14, 14), at distance 36 * sqrt 2 from the grid center;
any polar scheme able to do that can also place the center at
(50 + dist, 50) with dist^2 = 2592, which lies outside the code support
whose x coordinates stop below 86. -/
theorem random_zone_not_polar :
    ¬ ∃ minDist maxDist : ℝ, specPolarSupport minDist maxDist = codeCenterSupport := by
  rintro ⟨mn, mx, heq⟩
  have hmem : ((14:ℝ), (14:ℝ)) ∈ codeCenterSupport := by
    refine ⟨flatMap100, 14, 14, rfl, rfl, ?_, ?_⟩
    · norm_num [HeightMap.validDraws, HeightMap.drawInRange, LANDING_ZONE_BLEND_RADIUS,
        flatMap100]
    · norm_num [HeightMap.setRandomLandingZone, HeightMap.setLandingZone]
  rw [← heq] at hmem
  obtain ⟨angle, dist, hang0, hang2, hmn, hmx, hp⟩ := hmem
  have hx : (14:ℝ) = 50 + dist * Real.cos angle := congrArg Prod.fst hp
  have hy : (14:ℝ) = 50 + dist * Real.sin angle := congrArg Prod.snd hp
  have hc : dist * Real.cos angle = -36 := by linarith
  have hs : dist * Real.sin angle = -36 := by linarith
  have hd2 : dist ^ 2 = 2592 := by
    have e1 : (dist * Real.cos angle) ^ 2 = 1296 := by rw [hc]; norm_num
    have e2 : (dist * Real.sin angle) ^ 2 = 1296 := by rw [hs]; norm_num
    have epy := Real.sin_sq_add_cos_sq angle
    have hsum : (dist * Real.sin angle) ^ 2 + (dist * Real.cos angle) ^ 2 =
        dist ^ 2 * (Real.sin angle ^ 2 + Real.cos angle ^ 2) := by ring
    rw [e1, e2, epy, mul_one] at hsum
    linarith
  have hq : ((50 + dist, 50) : ℝ × ℝ) ∈ specPolarSupport mn mx := by
    refine ⟨0, dist, le_rfl, Real.two_pi_pos, hmn, hmx, ?_⟩
    simp [Real.cos_zero, Real.sin_zero]
  rw [heq] at hq
  obtain ⟨hm', rx, ry, hw, hdp, hdraws, hp'⟩ := hq
  have hx' : (50 + dist : ℝ) = (rx : ℝ) := by
    have h0 := congrArg Prod.fst hp'
    simpa [HeightMap.setRandomLandingZone, HeightMap.setLandingZone] using h0
  obtain ⟨⟨hrx1, hrx2⟩, _⟩ := hdraws
  rw [hw] at hrx2
  have hrxle : rx ≤ 85 := by
    norm_num [LANDING_ZONE_BLEND_RADIUS] at hrx2
    omega
  have h1 : (50 + dist : ℝ) ≤ 85 := by rw [hx']; exact_mod_cast hrxle
  have h2 : (14 : ℝ) ≤ 50 + dist := by
    rw [hx']
    exact_mod_cast le_trans (by norm_num [LANDING_ZONE_BLEND_RADIUS]) hrx1
  nlinarith [hd2, h1, h2,
    mul_nonneg (by linarith : (0:ℝ) ≤ 85 - (50 + dist))
      (by linarith : (0:ℝ) ≤ 50 + dist - 14)]

/-- C6 amended: `set_random_landing_zone` draws the x and y coordinates
independently, each uniformly from the half-open interval from twice the
blend radius to the grid extent minus twice the blend radius (embedded at
the support level), and the zone center is exactly the drawn pair; the
spec's polar angle-and-distance description does not match this placement. -/
theorem random_zone_rectangular (hm : HeightMap) (rx ry : ℕ)
    (hdraws : hm.validDraws rx ry) :
    (hm.setRandomLandingZone rx ry).landingZone.x = (rx : ℝ) ∧
      (hm.setRandomLandingZone rx ry).landingZone.y = (ry : ℝ) ∧
      LANDING_ZONE_BLEND_RADIUS * 2 ≤ rx ∧
      rx < hm.width - LANDING_ZONE_BLEND_RADIUS * 2 ∧
      LANDING_ZONE_BLEND_RADIUS * 2 ≤ ry ∧
      ry < hm.depth - LANDING_ZONE_BLEND_RADIUS * 2 := by
  obtain ⟨⟨h1, h2⟩, h3, h4⟩ := hdraws
  exact ⟨rfl, rfl, h1, h2, h3, h4⟩

/-- Witness for the amended C6 at a concrete grid and draw pair. -/
theorem random_zone_rectangular_witness :
    (flatMap100.setRandomLandingZone 14 14).landingZone.x = ((14:ℕ) : ℝ) ∧
      (flatMap100.setRandomLandingZone 14 14).landingZone.y = ((14:ℕ) : ℝ) ∧
      LANDING_ZONE_BLEND_RADIUS * 2 ≤ 14 ∧
      14 < flatMap100.width - LANDING_ZONE_BLEND_RADIUS * 2 ∧
      LANDING_ZONE_BLEND_RADIUS * 2 ≤ 14 ∧
      14 < flatMap100.depth - LANDING_ZONE_BLEND_RADIUS * 2 :=
  random_zone_rectangular flatMap100 14 14
    (by norm_num [HeightMap.validDraws, HeightMap.drawInRange, LANDING_ZONE_BLEND_RADIUS,
      flatMap100])

/-- Witness for C5 on a concrete grid with the zone centered at (100, 100). -/
theorem landing_zone_carving_witness :
    (∀ a b : ℕ, a < flatMap200.width → b < flatMap200.depth →
      planarDist 100 100 a b ≤ (LANDING_ZONE_RADIUS : ℝ) →
      (flatMap200.setLandingZone 100 100).get a b = flatMap200.get 100 100) ∧
    (∀ a b : ℕ, a < flatMap200.width → b < flatMap200.depth →
      (LANDING_ZONE_BLEND_RADIUS : ℝ) ≤ planarDist 100 100 a b →
      (flatMap200.setLandingZone 100 100).get a b = flatMap200.get a b) ∧
    (∀ a b : ℕ, a < flatMap200.width → b < flatMap200.depth →
      (LANDING_ZONE_RADIUS : ℝ) ≤ planarDist 100 100 a b →
      planarDist 100 100 a b ≤ (LANDING_ZONE_BLEND_RADIUS : ℝ) →
      (flatMap200.setLandingZone 100 100).get a b =
        (1 - blendT (planarDist 100 100 a b)) * flatMap200.get 100 100 +
          blendT (planarDist 100 100 a b) * flatMap200.get a b) ∧
    (∀ d1 d2 : ℝ, d1 ≤ d2 → blendT d1 ≤ blendT d2) :=
  landing_zone_carving flatMap200 100 100 (by norm_num [LANDING_ZONE_BLEND_RADIUS])
    (by norm_num [LANDING_ZONE_BLEND_RADIUS, flatMap200])
    (by norm_num [LANDING_ZONE_BLEND_RADIUS])
    (by norm_num [LANDING_ZONE_BLEND_RADIUS, flatMap200])

/-- Witness for the amended C7 at a concrete landed state and its concrete
distance criterion. -/
theorem distance_criterion_norm_witness :
    (⟨LandingCriterionType.DistanceFromLandingZone, ((5:ℕ) : ℝ),
        offsetLander.distanceFromLandingZone⟩ : LandingCriterion).actual =
        Real.sqrt (offsetLander.position.x ^ 2 + offsetLander.position.y ^ 2 +
          offsetLander.position.z ^ 2) ∧
      (⟨LandingCriterionType.DistanceFromLandingZone, ((5:ℕ) : ℝ),
        offsetLander.distanceFromLandingZone⟩ : LandingCriterion).max =
        (offsetLander.landingZoneRadius : ℝ) ∧
      (offsetLander.position.z = 0 →
        (⟨LandingCriterionType.DistanceFromLandingZone, ((5:ℕ) : ℝ),
          offsetLander.distanceFromLandingZone⟩ : LandingCriterion).actual =
          specPlanarDistance offsetLander) :=
  distance_criterion_norm offsetLander
    (by norm_num [offsetLander, Lander.new, Lander.hasLanded])
    ⟨LandingCriterionType.DistanceFromLandingZone, ((5:ℕ) : ℝ),
      offsetLander.distanceFromLandingZone⟩
    (by simp [Lander.landingCriteria, offsetLander, Lander.new]) rfl

end Lunar
